import Mathlib

/-!
Shallow embedding of the POSCLOUD `sync` app (src/sync/models.py, src/sync/services.py,
src/sync/views.py) and proofs about its synchronization engine.

Conventions of the embedding:
* Timestamps are natural numbers drawn from a logical clock carried in the database
  state (`DB.clock`); `timezone.now()` reads the current clock value.
* Django rows become Lean structures; JSON payloads become association lists of
  string key/value pairs.
* Python exceptions become `Except String` results; code that catches an exception
  is modelled by matching on the `Except` value at the catch site.
-/

/-- A Django model class registered with the app registry (`apps.get_model`):
its dotted label, whether it carries the `_sync_enabled` marker attribute, and its
declared non-sync field names (used by the `model_class(**data)` constructor). -/
structure ModelInfo where
  name : String
  sync_enabled : Bool
  fieldNames : List String
deriving Repr, DecidableEq

/-- A row of `SyncQueue` (src/sync/models.py lines 78-104): the change journal entry. -/
structure QueueEntry where
  model_name : String
  object_id : Nat
  operation : String
  data : List (String × String)
  sync_version : Nat
  created_at : Nat
  processed_at : Option Nat
  retry_count : Nat
  error_message : String
deriving Repr, DecidableEq

/-- A domain record carrying the `SyncModel` abstract-base fields
(src/sync/models.py lines 6-25) plus its payload fields.  `pk = none` models an
unsaved instance (no primary key yet). -/
structure SyncRecord where
  model_name : String
  pk : Option Nat
  sync_enabled : Bool
  sync_version : Nat
  sync_status : String
  fields : List (String × String)
  deleted_at : Option Nat
deriving Repr, DecidableEq

/-- The `details` JSON written by the conflict branch of `_handle_conflict`
(src/sync/services.py lines 387-391). -/
structure LogDetails where
  local_version : Nat
  cloud_version : Nat
  cloud_data : List (String × String)
deriving Repr, DecidableEq

/-- A row of `SyncLog` (src/sync/models.py lines 107-138). -/
structure LogEntry where
  operation : String
  status : String
  model_name : String
  object_id : Option Nat
  message : String
  details : Option LogDetails
deriving Repr, DecidableEq

/-- A change record on the wire: one element of the download response
(`{model, id, operation, data, version}`). -/
structure Change where
  model : String
  id : Nat
  operation : String
  data : List (String × String)
  version : Nat
deriving Repr, DecidableEq

/-- The mutable state touched by the sync engine: domain records, the `SyncQueue`
journal, the `SyncLog` audit log, the `SyncState` row keyed 'last_sync'
(`checkpoint = none` when the row is absent), the app registry, the configured
`CONFLICT_RESOLUTION` setting, and the logical clock. -/
structure DB where
  records : List SyncRecord
  queue : List QueueEntry
  logs : List LogEntry
  checkpoint : Option Nat
  knownModels : List ModelInfo
  conflict_resolution : String
  clock : Nat
deriving Repr, DecidableEq

/-- Outcome of the `requests.post` upload call in `_upload_changes`
(src/sync/services.py lines 226-247): a 200 response with the peer's
processed/conflict counts, a non-200 response (raised then caught), or a
transport exception. -/
inductive UploadOutcome where
  | ok (processed : Nat) (conflicts : Nat)
  | httpError (statusCode : Nat) (text : String)
  | netError (msg : String)
deriving Repr, DecidableEq

/-- Outcome of the `requests.get` download call in `_download_changes`
(src/sync/services.py lines 274-294). -/
inductive DownloadOutcome where
  | ok (changes : List Change)
  | httpError (statusCode : Nat) (text : String)
  | netError (msg : String)
deriving Repr, DecidableEq

/-- The result dictionary produced by `_upload_changes` (keys 'uploaded', 'conflicts'). -/
structure UploadResults where
  uploaded : Nat
  conflicts : Nat
deriving Repr, DecidableEq

/-- The summary returned by `perform_sync` (src/sync/services.py lines 29-34). -/
structure SyncResults where
  uploaded : Nat
  downloaded : Nat
  conflicts : Nat
  errors : List String
deriving Repr, DecidableEq

/-- The three-way decision taken by the `elif operation == 'update'` branch of
`_apply_cloud_change` (src/sync/services.py lines 330-340): apply when the cloud
version is strictly greater, treat as conflict when strictly smaller, otherwise
fall through (no-op). -/
inductive Decision where
  | APPLY
  | CONFLICT
  | IGNORE
deriving Repr, DecidableEq

/-- Decision structure of src/sync/services.py lines 330-340, extracted as a pure
function of the two version numbers. -/
def resolveDecision (local_version incoming_version : Nat) : Decision :=
  if incoming_version > local_version then Decision.APPLY
  else if incoming_version < local_version then Decision.CONFLICT
  else Decision.IGNORE

/-- Entries of the journal that are eligible for delivery:
`SyncQueue.objects.filter(processed_at__isnull=True)`.  The journal list is kept
in `created_at` order (Django's `Meta.ordering = ['created_at']`; entries are
appended with strictly increasing clock values). -/
def pendingEntries (q : List QueueEntry) : List QueueEntry :=
  q.filter (fun e => e.processed_at.isNone)

/-- The batch read by `_upload_changes` (src/sync/services.py lines 202-204):
unprocessed entries in creation order, limited to the batch size. -/
def dequeueBatch (q : List QueueEntry) (batch_size : Nat) : List QueueEntry :=
  (pendingEntries q).take batch_size

/-- Journal enqueue as performed by `SyncModel.save` (src/sync/models.py lines
43-52): `SyncQueue.objects.get_or_create(model_name=..., object_id=...,
defaults={...})`.  The lookup key is (model_name, object_id) only; the defaults
are used solely when no row with that key exists. -/
def enqueueChange (q : List QueueEntry) (mn : String) (oid : Nat) (op : String)
    (d : List (String × String)) (ver t : Nat) : List QueueEntry :=
  if q.any (fun e => e.model_name == mn && e.object_id == oid) then q
  else q ++ [⟨mn, oid, op, d, ver, t, none, 0, ""⟩]

/-- Number of journal entries carrying a given (model_name, object_id, sync_version)
identity, the `unique_together` key of `SyncQueue.Meta` (src/sync/models.py line 100). -/
def countKey (q : List QueueEntry) (mn : String) (oid ver : Nat) : Nat :=
  (q.filter (fun e => e.model_name == mn && e.object_id == oid && e.sync_version == ver)).length

/-- The per-entry mutation of the retry branch of `_upload_changes`
(src/sync/services.py lines 252-255): increment retry_count, store the error. -/
def markEntryFailed (err : String) (e : QueueEntry) : QueueEntry :=
  { e with retry_count := e.retry_count + 1, error_message := err }

/-- The per-entry mutation of the success branch of `_upload_changes`
(src/sync/services.py lines 242-244): set processed_at to now. -/
def markEntryProcessed (t : Nat) (e : QueueEntry) : QueueEntry :=
  { e with processed_at := some t }

/-- Apply `f` to the first `n` unprocessed entries of the journal, in place: this is
the `for change in pending_changes: ...; change.save()` loop of `_upload_changes`,
where `pending_changes` is the first-`n`-unprocessed batch. -/
def mapBatch (f : QueueEntry → QueueEntry) : List QueueEntry → Nat → List QueueEntry
  | [], _ => []
  | e :: rest, n =>
    if e.processed_at.isNone then
      match n with
      | 0 => e :: rest
      | Nat.succ m => f e :: mapBatch f rest m
    else
      e :: mapBatch f rest n

/-- The error message stored by the except-branch of `_upload_changes` for each
failing outcome: `str(e)` where a non-200 response was first re-raised as
`Exception(f"Upload failed: {status} {text}")`. -/
def uploadFailureMessage : UploadOutcome → Option String
  | UploadOutcome.ok _ _ => none
  | UploadOutcome.httpError s t => some ("Upload failed: " ++ toString s ++ " " ++ t)
  | UploadOutcome.netError msg => some msg

/-- Snapshot of the domain payload, `SyncModel.get_sync_data`
(src/sync/models.py lines 63-75): the non-sync, non-pk fields. -/
def getSyncData (r : SyncRecord) : List (String × String) :=
  r.fields

/-- Python `hasattr(obj, key)` for a payload key: the record declares that field. -/
def hasField (r : SyncRecord) (k : String) : Bool :=
  r.fields.any (fun p => p.1 == k)

/-- Overwrite one declared field's value. -/
def setField (fs : List (String × String)) (k v : String) : List (String × String) :=
  fs.map (fun p => if p.1 == k then (k, v) else p)

/-- The `for key, value in data.items(): if hasattr(obj, key): setattr(obj, key, value)`
loop of `_apply_cloud_change` / `_handle_conflict`. -/
def applyData (r : SyncRecord) (data : List (String × String)) : SyncRecord :=
  data.foldl
    (fun acc p => if hasField acc p.1 then { acc with fields := setField acc.fields p.1 p.2 } else acc)
    r

/-- Two records occupy the same database row: same model table and primary key. -/
def sameKey (a b : SyncRecord) : Bool :=
  a.model_name == b.model_name && a.pk == b.pk

/-- Persist a record instance: replace the row with the same (model, pk) if one
exists, otherwise insert. -/
def upsertRecord (rs : List SyncRecord) (r : SyncRecord) : List SyncRecord :=
  if rs.any (fun x => sameKey x r) then
    rs.map (fun x => if sameKey x r then r else x)
  else rs ++ [r]

/-- Database lookup `model_class.objects.get(pk=object_id)` (returns `none` where
the Python code would raise `DoesNotExist`). -/
def findRecord (db : DB) (m : String) (pk : Nat) : Option SyncRecord :=
  db.records.find? (fun r => r.model_name == m && r.pk == some pk)

/-- The `SyncModel.save` override (src/sync/models.py lines 30-52): increment
sync_version when the instance already has a primary key; flip a sync-enabled
record's status from 'synced' to 'pending'; persist; then, when sync-enabled and
pending, enqueue via `get_or_create` keyed on (model_name, object_id).  `freshPk`
is the primary key the database assigns on insert.  Returns the saved instance
and the new state; the clock ticks so later saves get later timestamps. -/
def saveRecord (r : SyncRecord) (db : DB) (freshPk : Nat) : SyncRecord × DB :=
  let r1 := if r.pk.isSome then { r with sync_version := r.sync_version + 1 } else r
  let r2 := if r1.sync_enabled && r1.sync_status == "synced" then { r1 with sync_status := "pending" } else r1
  let pkv := r2.pk.getD freshPk
  let r3 := { r2 with pk := some pkv }
  let q1 := if r3.sync_enabled && r3.sync_status == "pending" then
      enqueueChange db.queue r3.model_name pkv "update" (getSyncData r3) r3.sync_version db.clock
    else db.queue
  (r3, { db with records := upsertRecord db.records r3, queue := q1, clock := db.clock + 1 })

/-- The `SyncModel.delete` override (src/sync/models.py lines 54-61): soft delete
(status 'deleted', deleted_at now, save) when sync-enabled, physical delete otherwise. -/
def deleteRecord (r : SyncRecord) (db : DB) : DB :=
  if r.sync_enabled then
    (saveRecord { r with sync_status := "deleted", deleted_at := some db.clock } db 0).2
  else
    { db with records := db.records.filter (fun x => !(sameKey x r)) }

/-- The `model_class(**data)` constructor: raises `TypeError` when `data` holds a
key that is not a declared field; otherwise builds a fresh unsaved instance with
the model's declared fields (absent keys keep an empty default) and the
`SyncModel` field defaults (sync_version 1, sync_status 'local'). -/
def constructRecord (mi : ModelInfo) (data : List (String × String)) : Except String SyncRecord :=
  if data.any (fun p => !(mi.fieldNames.contains p.1)) then
    Except.error "TypeError: unexpected keyword argument"
  else
    Except.ok
      ⟨mi.name, none, mi.sync_enabled, 1, "local",
        mi.fieldNames.map (fun f => (f, (((data.find? (fun p => p.1 == f)).map (fun p => p.2)).getD ""))),
        none⟩

/-- The `_handle_conflict` method (src/sync/services.py lines 357-392), dispatching
on the configured policy.  Under 'server_wins' the incoming payload overwrites the
local fields and the incoming version and status 'synced' are assigned before
saving; under 'client_wins' the record is merely re-marked 'pending' and saved;
any other policy value is the manual branch: mark 'conflict', save, then write a
SyncLog row whose details read the saved object's sync_version (i.e. after the
save's increment), the cloud version and the full cloud payload. -/
def handleConflict (db : DB) (obj : SyncRecord) (cloud_data : List (String × String))
    (cloud_version : Nat) : DB :=
  if db.conflict_resolution == "server_wins" then
    let o1 := applyData obj cloud_data
    (saveRecord { o1 with sync_version := cloud_version, sync_status := "synced" } db 0).2
  else if db.conflict_resolution == "client_wins" then
    (saveRecord { obj with sync_status := "pending" } db 0).2
  else
    let saved := saveRecord { obj with sync_status := "conflict" } db 0
    let o2 := saved.1
    let db1 := saved.2
    { db1 with logs := db1.logs ++
        [⟨"conflict", "error", o2.model_name, o2.pk, "Sync conflict detected",
          some ⟨o2.sync_version, cloud_version, cloud_data⟩⟩] }

/-- The `_apply_cloud_change` method (src/sync/services.py lines 302-355).
`apps.get_model` raises `LookupError` for a model missing from the registry; the
update branch on an existing row applies the three-way version comparison of
lines 330-340; an update for a missing row and a create both construct a fresh
instance (the update-missing case force-assigns the wire primary key first);
delete delegates to the model's delete override. -/
def applyCloudChange (db : DB) (ch : Change) : Except String DB :=
  match db.knownModels.find? (fun mi => mi.name == ch.model) with
  | none => Except.error ("LookupError: " ++ ch.model)
  | some mi =>
    if ch.operation == "create" then
      if (findRecord db ch.model ch.id).isSome then Except.ok db
      else
        match constructRecord mi ch.data with
        | Except.error e => Except.error e
        | Except.ok obj =>
          Except.ok (saveRecord { obj with sync_status := "synced", sync_version := ch.version } db db.clock).2
    else if ch.operation == "update" then
      match findRecord db ch.model ch.id with
      | some obj =>
        if ch.version > obj.sync_version then
          let o1 := applyData obj ch.data
          Except.ok (saveRecord { o1 with sync_status := "synced", sync_version := ch.version } db db.clock).2
        else if ch.version < obj.sync_version then
          Except.ok (handleConflict db obj ch.data ch.version)
        else Except.ok db
      | none =>
        match constructRecord mi ch.data with
        | Except.error e => Except.error e
        | Except.ok obj =>
          Except.ok (saveRecord
            { obj with pk := some ch.id, sync_status := "synced", sync_version := ch.version }
            db db.clock).2
    else if ch.operation == "delete" then
      match findRecord db ch.model ch.id with
      | some obj => Except.ok (deleteRecord obj db)
      | none => Except.ok db
    else Except.ok db

/-- The `_upload_changes` method (src/sync/services.py lines 195-257).  The batch
of pending entries is read; when it is empty the call returns at once.  On a 200
response every batch entry is marked processed and the peer's counts are
reported; a non-200 response is raised and, like a transport exception, lands in
the except-branch that increments each batch entry's retry_count and stores the
error message.  Transport failures are swallowed here: the caller sees only
zeroed counts. -/
def uploadChanges (db : DB) (out : UploadOutcome) (batch_size : Nat) : DB × UploadResults :=
  if (dequeueBatch db.queue batch_size).isEmpty then (db, ⟨0, 0⟩)
  else
    match out with
    | UploadOutcome.ok processed conflicts =>
      ({ db with queue := mapBatch (markEntryProcessed db.clock) db.queue batch_size },
        ⟨processed, conflicts⟩)
    | UploadOutcome.httpError s t =>
      ({ db with queue := mapBatch (markEntryFailed ("Upload failed: " ++ toString s ++ " " ++ t)) db.queue batch_size },
        ⟨0, 0⟩)
    | UploadOutcome.netError msg =>
      ({ db with queue := mapBatch (markEntryFailed msg) db.queue batch_size },
        ⟨0, 0⟩)

/-- The download application loop of `_download_changes` (src/sync/services.py
lines 285-291).  Each change is applied in order; records saved before a failure
stay saved (no transaction wraps the loop).  On the first per-record failure the
handler at line 291 evaluates `results['errors']`, but `_download_changes`
initialised `results = {'downloaded': 0}` (line 263) with no 'errors' key, so a
`KeyError` is raised instead of recording the message; it is caught at line 296
whose own `results['errors'].append` (line 298) raises `KeyError` again, which
escapes the method.  The loop therefore stops at the first failing record.
Returns the state reached, the count applied, and the escaping error if any. -/
def applyLoop : DB → List Change → Nat → DB × Nat × Option String
  | db, [], n => (db, n, none)
  | db, ch :: rest, n =>
    match applyCloudChange db ch with
    | Except.ok db1 => applyLoop db1 rest (n + 1)
    | Except.error _ => (db, n, some "KeyError: 'errors'")

/-- The `_download_changes` method (src/sync/services.py lines 259-300).  A
transport failure or non-200 response reaches the except-branch at line 296,
whose `results['errors'].append(str(e))` raises `KeyError` ('errors' was never
put into `results`), so every failing download escapes with an exception rather
than returning; only a fully clean pass returns the downloaded count. -/
def downloadChanges (db : DB) (out : DownloadOutcome) : DB × Except String Nat :=
  match out with
  | DownloadOutcome.ok changes =>
    match applyLoop db changes 0 with
    | (db1, n, none) => (db1, Except.ok n)
    | (db1, _, some e) => (db1, Except.error e)
  | DownloadOutcome.httpError _ _ => (db, Except.error "KeyError: 'errors'")
  | DownloadOutcome.netError _ => (db, Except.error "KeyError: 'errors'")

/-- The `perform_sync` method in its local-to-cloud topology (src/sync/services.py
lines 25-80 with `is_cloud = False`): run the upload stage (which swallows its own
transport failures), then the download stage; if the download stage raised, the
outer except-branch at line 71 records the error in the summary and the log and
returns — the `SyncState` checkpoint row is NOT touched; otherwise the checkpoint
is upserted to now and a success log row is written.  Note line 56 overwrites the
summary's conflict count with the download result's absent 'conflicts' key
(default 0) on the success path. -/
def performSync (db : DB) (up : UploadOutcome) (down : DownloadOutcome) (batch_size : Nat) :
    DB × SyncResults :=
  let p1 := uploadChanges db up batch_size
  let p2 := downloadChanges p1.1 down
  match p2.2 with
  | Except.ok n =>
    ({ p2.1 with
        checkpoint := some p2.1.clock,
        logs := p2.1.logs ++
          [⟨"sync", "success", "", none,
            "Sync completed: " ++ toString p1.2.uploaded ++ " uploaded, " ++ toString n ++
              " downloaded, 0 conflicts", none⟩] },
      ⟨p1.2.uploaded, n, 0, []⟩)
  | Except.error e =>
    ({ p2.1 with
        logs := p2.1.logs ++ [⟨"error", "error", "", none, "Sync failed: " ++ e, none⟩] },
      ⟨p1.2.uploaded, 0, p1.2.conflicts, [e]⟩)

/-- The `clear_sync_queue` view (src/sync/views.py lines 132-151), the operator
triggered queue purge: `SyncQueue.objects.filter(processed_at__isnull=True).delete()`
removes every unprocessed entry and reports the count, then writes a log row. -/
def clearSyncQueue (db : DB) : DB × Nat :=
  let deleted := (db.queue.filter (fun e => e.processed_at.isNone)).length
  ({ db with
      queue := db.queue.filter (fun e => !e.processed_at.isNone),
      logs := db.logs ++
        [⟨"upload", "success", "", none,
          "Cleared " ++ toString deleted ++ " items from sync queue", none⟩] },
    deleted)

/-! Concrete fixtures used by counterexamples and witnesses. -/

/-- A registered sync-enabled product model with one payload field. -/
def miP : ModelInfo := ⟨"inventory.product", true, ["name"]⟩

/-- A persisted sync-enabled record at version 5, already synced. -/
def rA : SyncRecord := ⟨"inventory.product", some 1, true, 5, "synced", [("name", "a")], none⟩

/-- A persisted sync-enabled record at version 1, already synced. -/
def rB : SyncRecord := ⟨"inventory.product", some 2, true, 1, "synced", [("name", "x")], none⟩

/-- An unprocessed journal entry for record 1. -/
def e1 : QueueEntry := ⟨"inventory.product", 1, "update", [("name", "a")], 5, 10, none, 0, ""⟩

/-- An unprocessed journal entry for record 2 with two earlier retries. -/
def e2 : QueueEntry := ⟨"inventory.product", 2, "update", [("name", "x")], 1, 11, none, 2, ""⟩

/-- A processed journal entry. -/
def e3 : QueueEntry := ⟨"inventory.product", 3, "update", [], 1, 12, some 20, 0, ""⟩

/-- State with record rA, an empty journal, checkpoint 50, server-wins policy. -/
def db0 : DB := ⟨[rA], [], [], some 50, [miP], "server_wins", 60⟩

/-- Like db0 but with one unprocessed journal entry pending upload. -/
def dbC1 : DB := ⟨[rA], [e1], [], some 50, [miP], "server_wins", 60⟩

/-- Like db0 under the manual conflict policy. -/
def dbM : DB := ⟨[rA], [], [], some 50, [miP], "manual", 60⟩

/-- State with records rA and rB for the download-batch scenarios. -/
def dbC4 : DB := ⟨[rA, rB], [], [], some 50, [miP], "server_wins", 60⟩

/-- A change naming a model that is not in the app registry. -/
def chBad : Change := ⟨"ghost.model", 9, "update", [("name", "z")], 4⟩

/-- A well-formed update for record 2 at a newer version. -/
def chGood : Change := ⟨"inventory.product", 2, "update", [("name", "y")], 7⟩

/-- State with two unprocessed entries and one processed entry in the journal. -/
def dbQ : DB := ⟨[], [e1, e2, e3], [], none, [], "server_wins", 60⟩

/-- A journal already holding an unprocessed entry for (m, 1) at version 7. -/
def qStale : List QueueEntry := [⟨"m", 1, "update", [], 7, 0, none, 0, ""⟩]

/-! Helper lemmas shared by the claim theorems. -/

/-- The upload stage never touches the `SyncState` checkpoint row. -/
theorem uploadChanges_checkpoint (db : DB) (out : UploadOutcome) (bs : Nat) :
    (uploadChanges db out bs).1.checkpoint = db.checkpoint := by
  unfold uploadChanges
  split
  · rfl
  · cases out <;> rfl

/-- The upload stage does not advance the logical clock. -/
theorem uploadChanges_clock (db : DB) (out : UploadOutcome) (bs : Nat) :
    (uploadChanges db out bs).1.clock = db.clock := by
  unfold uploadChanges
  split
  · rfl
  · cases out <;> rfl

/-- Updating the first n pending entries in place splits the pending list into the
updated batch followed by the untouched remainder, provided the update keeps
entries pending. -/
theorem pendingEntries_mapBatch (f : QueueEntry → QueueEntry)
    (hf : ∀ e, (f e).processed_at = e.processed_at)
    (q : List QueueEntry) : ∀ n : Nat,
    pendingEntries (mapBatch f q n) =
      ((pendingEntries q).take n).map f ++ (pendingEntries q).drop n := by
  induction q with
  | nil => intro n; simp [mapBatch, pendingEntries]
  | cons e rest ih =>
    intro n
    cases hp : e.processed_at.isNone with
    | true =>
      cases n with
      | zero =>
        simp [mapBatch, hp, pendingEntries]
      | succ m =>
        have hfp : (f e).processed_at.isNone = true := by rw [hf]; exact hp
        simp only [mapBatch, hp, if_true]
        simp only [pendingEntries, List.filter_cons, hfp, hp, if_true,
          List.take_succ_cons, List.map_cons, List.drop_succ_cons, List.cons_append]
        exact congrArg _ (ih m)
    | false =>
      simp only [mapBatch, hp]
      simp only [Bool.false_eq_true, if_false]
      simp only [pendingEntries, List.filter_cons, hp]
      simp only [Bool.false_eq_true, if_false]
      exact ih n

/-- Re-reading a batch after updating it in place yields exactly the updated
entries, in their original relative order. -/
theorem dequeueBatch_mapBatch (f : QueueEntry → QueueEntry)
    (hf : ∀ e, (f e).processed_at = e.processed_at)
    (q : List QueueEntry) (n : Nat) :
    dequeueBatch (mapBatch f q n) n = (dequeueBatch q n).map f := by
  unfold dequeueBatch
  rw [pendingEntries_mapBatch f hf q n, List.take_append_eq_append_take]
  have hlen : (((pendingEntries q).take n).map f).length ≤ n := by
    simp [List.length_take]
  rw [List.take_of_length_le hlen]
  rcases le_or_lt n (pendingEntries q).length with h | h
  · have h0 : n - (((pendingEntries q).take n).map f).length = 0 := by
      simp [List.length_take, Nat.min_eq_left h]
    rw [h0, List.take_zero, List.append_nil]
  · rw [List.drop_eq_nil_of_le (le_of_lt h)]
    simp

/-- Every entry offered in a batch is unprocessed. -/
theorem dequeueBatch_processed_at_none (q : List QueueEntry) (n : Nat) :
    ∀ e ∈ dequeueBatch q n, e.processed_at = none := by
  intro e he
  have hmem : e ∈ pendingEntries q := List.take_subset n (pendingEntries q) he
  have := (List.mem_filter.mp hmem).2
  exact Option.isNone_iff_eq_none.mp this

/-- After an enqueue for (mn, oid), the journal holds an entry with that pair key. -/
theorem enqueueChange_any (q : List QueueEntry) (mn : String) (oid : Nat)
    (op : String) (d : List (String × String)) (ver t : Nat) :
    (enqueueChange q mn oid op d ver t).any
      (fun e => e.model_name == mn && e.object_id == oid) = true := by
  unfold enqueueChange
  cases hq : q.any (fun e => e.model_name == mn && e.object_id == oid) with
  | true => simp [hq]
  | false => simp [hq]

/-- An enqueue finding an existing (mn, oid) entry is a no-op. -/
theorem enqueueChange_of_any (q : List QueueEntry) (mn : String) (oid : Nat)
    (op : String) (d : List (String × String)) (ver t : Nat)
    (h : q.any (fun e => e.model_name == mn && e.object_id == oid) = true) :
    enqueueChange q mn oid op d ver t = q := by
  unfold enqueueChange
  simp [h]

/-- Applying a payload mapping only rewrites the payload fields; every other
component of the record is untouched. -/
theorem applyData_eq (d : List (String × String)) : ∀ r : SyncRecord,
    applyData r d = { r with fields := (applyData r d).fields } := by
  induction d with
  | nil => intro r; rfl
  | cons p d ih =>
    intro r
    simp only [applyData, List.foldl_cons] at ih ⊢
    cases h : hasField r p.1 with
    | true =>
      simp only [h, if_true]
      exact ih _
    | false =>
      simp only [h, Bool.false_eq_true, if_false]
      exact ih r

/-- The instance returned by a save of an already-persisted record: the version
is incremented, a sync-enabled synced record flips to pending, nothing else moves. -/
theorem saveRecord_fst (r : SyncRecord) (db : DB) (fpk p : Nat) (hpk : r.pk = some p) :
    (saveRecord r db fpk).1 =
      { r with
          sync_version := r.sync_version + 1,
          sync_status :=
            if r.sync_enabled && r.sync_status == "synced" then "pending" else r.sync_status } := by
  obtain ⟨mn, pk0, en, sv, ss, fs, da⟩ := r
  simp only at hpk
  subst hpk
  unfold saveRecord
  cases hc : en && (ss == "synced") <;> simp [hc]

/-- The state effect of a save of an already-persisted record: the saved instance
is upserted, the journal gains an entry via get_or_create exactly when the record
is sync-enabled and ends up pending, and the clock ticks. -/
theorem saveRecord_snd (r : SyncRecord) (db : DB) (fpk p : Nat) (hpk : r.pk = some p) :
    (saveRecord r db fpk).2 =
      { db with
          records := upsertRecord db.records (saveRecord r db fpk).1,
          queue :=
            if r.sync_enabled && ((saveRecord r db fpk).1.sync_status == "pending") then
              enqueueChange db.queue r.model_name p "update" r.fields (r.sync_version + 1) db.clock
            else db.queue,
          clock := db.clock + 1 } := by
  obtain ⟨mn, pk0, en, sv, ss, fs, da⟩ := r
  simp only at hpk
  subst hpk
  unfold saveRecord
  cases hc : en && (ss == "synced") <;> simp [hc, getSyncData]

/-- Replacing every row that shares r's key keeps the first such row findable, and
it now is r. -/
theorem find?_map_replace (r : SyncRecord) (pred : SyncRecord → Bool)
    (hpred : ∀ x, pred x = sameKey x r) (hr : pred r = true) :
    ∀ rs : List SyncRecord, rs.any (fun x => sameKey x r) = true →
      ((rs.map (fun x => if sameKey x r then r else x)).find? pred) = some r := by
  intro rs
  induction rs with
  | nil => intro h; simp at h
  | cons x xs ih =>
    intro h
    cases hx : sameKey x r with
    | true =>
      simp only [List.map_cons, hx, if_true]
      exact List.find?_cons_of_pos _ hr
    | false =>
      simp only [List.map_cons, hx, Bool.false_eq_true, if_false]
      rw [List.find?_cons_of_neg]
      · apply ih
        simp only [List.any_cons, hx, Bool.false_or] at h
        exact h
      · rw [hpred x, hx]
        simp

/-- Upserting a row whose key already occurs makes that row the lookup result. -/
theorem findRecord_upsert (m : String) (p : Nat) (r : SyncRecord)
    (hm : r.model_name = m) (hp : r.pk = some p) (rs : List SyncRecord)
    (hex : (rs.find? (fun x => x.model_name == m && x.pk == some p)).isSome = true) :
    ((upsertRecord rs r).find? (fun x => x.model_name == m && x.pk == some p)) = some r := by
  have hkey : ∀ x : SyncRecord, (x.model_name == m && x.pk == some p) = sameKey x r := by
    intro x
    rw [sameKey, hm, hp]
  have hany : rs.any (fun x => sameKey x r) = true := by
    rw [List.any_eq_true]
    obtain ⟨x, hx, hpx⟩ := List.find?_isSome.mp hex
    exact ⟨x, hx, by rw [← hkey]; exact hpx⟩
  unfold upsertRecord
  rw [if_pos hany]
  exact find?_map_replace r _ hkey (by rw [hkey r, sameKey]; simp) rs hany

/-- Saving a fetched record leaves its row findable, holding the saved instance. -/
theorem findRecord_saveRecord (r : SyncRecord) (db : DB) (fpk p : Nat)
    (hpk : r.pk = some p)
    (hex : (findRecord db r.model_name p).isSome = true) :
    findRecord (saveRecord r db fpk).2 r.model_name p = some (saveRecord r db fpk).1 := by
  have h1 := saveRecord_fst r db fpk p hpk
  have hm : (saveRecord r db fpk).1.model_name = r.model_name := by rw [h1]
  have hp : (saveRecord r db fpk).1.pk = some p := by rw [h1]; exact hpk
  rw [saveRecord_snd r db fpk p hpk]
  unfold findRecord at hex ⊢
  exact findRecord_upsert r.model_name p _ hm hp db.records hex

/-! Claim theorems. -/

/-- C1 counterexample.  The claim says a pass with a fatal transport error leaves
the checkpoint at its pre-pass value.  Here the pass holds a nonempty upload
batch, the upload POST fails with a transport exception, the download is clean —
and the checkpoint still moves (from 50 to the pass timestamp): `_upload_changes`
swallows its own transport failures, so `perform_sync` reaches the unconditional
`SyncState.objects.update_or_create` at lines 59-63. -/
theorem C1_checkpoint_cex :
    dequeueBatch dbC1.queue 100 ≠ [] ∧
    (performSync dbC1 (UploadOutcome.netError "connection refused")
        (DownloadOutcome.ok []) 100).1.checkpoint ≠ dbC1.checkpoint := by
  exact ⟨by decide, by decide⟩

/-- C1 amended: the checkpoint is left at its pre-pass value exactly when the
DOWNLOAD stage fails (its failure escapes `_download_changes` as an exception and
skips the checkpoint update), while a pass whose upload fails at transport level
but whose download succeeds still advances the checkpoint to the pass timestamp. -/
theorem C1_checkpoint_amended (db : DB) (up : UploadOutcome) (bs s : Nat) (t m e : String) :
    (performSync db up (DownloadOutcome.httpError s t) bs).1.checkpoint = db.checkpoint ∧
    (performSync db up (DownloadOutcome.netError m) bs).1.checkpoint = db.checkpoint ∧
    (performSync db (UploadOutcome.netError e) (DownloadOutcome.ok []) bs).1.checkpoint =
      some db.clock := by
  refine ⟨?_, ?_, ?_⟩
  · simp only [performSync, downloadChanges]
    exact uploadChanges_checkpoint db up bs
  · simp only [performSync, downloadChanges]
    exact uploadChanges_checkpoint db up bs
  · simp only [performSync, downloadChanges, applyLoop]
    rw [uploadChanges_clock]

/-- Dispatch of the update branch of `_apply_cloud_change` for an existing record:
the result is fully determined by comparing the incoming and local versions. -/
theorem applyCloudChange_update_dispatch (db : DB) (ch : Change) (r : SyncRecord)
    (mi : ModelInfo)
    (hm : db.knownModels.find? (fun x => x.name == ch.model) = some mi)
    (hop : ch.operation = "update")
    (hr : findRecord db ch.model ch.id = some r) :
    applyCloudChange db ch =
      (if ch.version > r.sync_version then
        Except.ok (saveRecord
          { applyData r ch.data with sync_status := "synced", sync_version := ch.version }
          db db.clock).2
      else if ch.version < r.sync_version then
        Except.ok (handleConflict db r ch.data ch.version)
      else Except.ok db) := by
  unfold applyCloudChange
  rw [hm, hop, hr]
  simp

/-- C2 counterexample.  Local record at version 5 with NO pending journal entries;
incoming update at version 3 (incoming < local).  The claim says applying is a
no-op; instead `_apply_cloud_change` invokes `_handle_conflict`, and under the
configured server-wins policy the payload is overwritten (name flips from a to b),
so the state is not unchanged. -/
theorem C2_monotonic_cex :
    pendingEntries db0.queue = [] ∧
    (findRecord db0 "inventory.product" 1).map (fun x => (x.sync_version, x.fields)) =
      some (5, [("name", "a")]) ∧
    ((applyCloudChange db0 ⟨"inventory.product", 1, "update", [("name", "b")], 3⟩).toOption.bind
      (fun d => (findRecord d "inventory.product" 1).map (fun x => x.fields))) =
      some [("name", "b")] ∧
    (applyCloudChange db0 ⟨"inventory.product", 1, "update", [("name", "b")], 3⟩).toOption ≠
      some db0 := by
  exact ⟨rfl, rfl, rfl, by decide⟩

/-- C2 amended: applying an incoming update to an existing record is a no-op only
when the incoming version EQUALS the local sync_version; when the incoming
version is strictly smaller, `_apply_cloud_change` always hands the record to
`_handle_conflict`, whether or not pending journal entries exist. -/
theorem C2_monotonic_amended (db : DB) (ch : Change) (r : SyncRecord) (mi : ModelInfo)
    (hm : db.knownModels.find? (fun x => x.name == ch.model) = some mi)
    (hop : ch.operation = "update")
    (hr : findRecord db ch.model ch.id = some r) :
    (ch.version = r.sync_version → applyCloudChange db ch = Except.ok db) ∧
    (ch.version < r.sync_version →
      applyCloudChange db ch = Except.ok (handleConflict db r ch.data ch.version)) := by
  have hd := applyCloudChange_update_dispatch db ch r mi hm hop hr
  constructor
  · intro hv
    rw [hd, if_neg (by omega), if_neg (by omega)]
  · intro hv
    rw [hd, if_neg (by omega), if_pos hv]

/-- C2 witness: equal versions, concrete input — the apply is a no-op. -/
theorem C2_monotonic_witness :
    applyCloudChange db0 ⟨"inventory.product", 1, "update", [("name", "b")], 5⟩ =
      Except.ok db0 := by
  exact (C2_monotonic_amended db0 ⟨"inventory.product", 1, "update", [("name", "b")], 5⟩
    rA miP rfl rfl rfl).1 rfl

/-- C3 counterexample.  Server-wins resolution of an incoming version-3 payload
against local record rA (version 5): the stored record ends at sync_version 4
(the save increments past the adopted version 3) with sync_status 'pending' (the
save flips the just-assigned 'synced' back to 'pending' for a sync-enabled
record) — against the claim's stored version = 3 and pending cleared. -/
theorem C3_server_wins_cex :
    (findRecord (handleConflict db0 rA [("name", "b")] 3) "inventory.product" 1).map
        (fun x => (x.sync_version, x.sync_status)) = some (4, "pending") ∧
    (4 : Nat) ≠ 3 ∧ "pending" ≠ "synced" := by
  exact ⟨rfl, by decide, by decide⟩

/-- C3 amended: under server-wins the local payload fields do take the incoming
values, but the STORED sync_version is incoming_version + 1 (the `SyncModel.save`
override increments on update), and for a sync-enabled record the stored
sync_status is 'pending' again (and only for non-sync-enabled records 'synced'). -/
theorem C3_server_wins_amended (db : DB) (r : SyncRecord) (data : List (String × String))
    (cv p : Nat) (hpol : db.conflict_resolution = "server_wins")
    (hpk : r.pk = some p)
    (hex : (findRecord db r.model_name p).isSome = true) :
    (findRecord (handleConflict db r data cv) r.model_name p).map
        (fun x => (x.fields, x.sync_version, x.sync_status)) =
      some ((applyData r data).fields, cv + 1,
        if r.sync_enabled then "pending" else "synced") := by
  have hcond : (db.conflict_resolution == "server_wins") = true := by rw [hpol]; rfl
  have hstep : handleConflict db r data cv =
      (saveRecord { applyData r data with sync_version := cv, sync_status := "synced" } db 0).2 := by
    unfold handleConflict
    simp [hcond]
  have hada := applyData_eq data r
  have ho2pk : ({ applyData r data with sync_version := cv, sync_status := "synced" } : SyncRecord).pk = some p := by
    show (applyData r data).pk = some p
    rw [hada]
    exact hpk
  have ho2mn : ({ applyData r data with sync_version := cv, sync_status := "synced" } : SyncRecord).model_name = r.model_name := by
    show (applyData r data).model_name = r.model_name
    rw [hada]
  have ho2en : ({ applyData r data with sync_version := cv, sync_status := "synced" } : SyncRecord).sync_enabled = r.sync_enabled := by
    show (applyData r data).sync_enabled = r.sync_enabled
    rw [hada]
  have hfind := findRecord_saveRecord
    { applyData r data with sync_version := cv, sync_status := "synced" } db 0 p ho2pk
    (by rw [ho2mn]; exact hex)
  rw [hstep]
  rw [ho2mn] at hfind
  rw [hfind, saveRecord_fst _ db 0 p ho2pk]
  simp only [Option.map_some']
  have hen : (applyData r data).sync_enabled = r.sync_enabled := by rw [hada]
  rw [hen]
  simp

/-- C3 witness: the amended statement at the concrete conflict of the
counterexample — payload adopted, stored version 3 + 1, status back to pending. -/
theorem C3_server_wins_witness :
    (findRecord (handleConflict db0 rA [("name", "b")] 3) "inventory.product" 1).map
        (fun x => (x.fields, x.sync_version, x.sync_status)) =
      some ([("name", "b")], 4, "pending") := by
  exact C3_server_wins_amended db0 rA [("name", "b")] 3 1 rfl rfl rfl

/-- C4 (code bug evidence).  A download batch whose FIRST record fails to apply
(unknown model reference) makes the whole `_download_changes` call escape with
the KeyError raised by `results['errors']` (the 'errors' key was never put into
the results dict), so the second, perfectly applicable record of the same batch
is never applied: alone it would bring record 2 to stored version 8, but in the
failing batch record 2 stays at version 1. -/
theorem C4_isolation_bug :
    (downloadChanges dbC4 (DownloadOutcome.ok [chBad, chGood])).2 =
      Except.error "KeyError: 'errors'" ∧
    (findRecord (downloadChanges dbC4 (DownloadOutcome.ok [chBad, chGood])).1
        "inventory.product" 2).map (fun x => x.sync_version) = some 1 ∧
    (findRecord (downloadChanges dbC4 (DownloadOutcome.ok [chGood])).1
        "inventory.product" 2).map (fun x => x.sync_version) = some 8 := by
  exact ⟨rfl, rfl, rfl⟩

/-- C5 (confirmed).  Incoming version strictly below the local version while the
record has unprocessed journal entries: the decision of the update branch is
CONFLICT — not APPLY, not IGNORE — and `_apply_cloud_change` hands the record to
`_handle_conflict`. -/
theorem C5_conflict_correctness (db : DB) (ch : Change) (r : SyncRecord) (mi : ModelInfo)
    (hm : db.knownModels.find? (fun x => x.name == ch.model) = some mi)
    (hop : ch.operation = "update")
    (hr : findRecord db ch.model ch.id = some r)
    (hpend : (pendingEntries db.queue).any
      (fun e => e.model_name == ch.model && e.object_id == ch.id) = true)
    (hv : ch.version < r.sync_version) :
    resolveDecision r.sync_version ch.version = Decision.CONFLICT ∧
    resolveDecision r.sync_version ch.version ≠ Decision.APPLY ∧
    resolveDecision r.sync_version ch.version ≠ Decision.IGNORE ∧
    applyCloudChange db ch = Except.ok (handleConflict db r ch.data ch.version) := by
  have hres : resolveDecision r.sync_version ch.version = Decision.CONFLICT := by
    unfold resolveDecision
    rw [if_neg (by omega), if_pos hv]
  refine ⟨hres, ?_, ?_, ?_⟩
  · rw [hres]; intro h; exact Decision.noConfusion h
  · rw [hres]; intro h; exact Decision.noConfusion h
  · rw [applyCloudChange_update_dispatch db ch r mi hm hop hr,
      if_neg (by omega), if_pos hv]

/-- C5 witness: local version 5, pending entry e1 for the record, incoming
version 3 — the conflict path is taken concretely. -/
theorem C5_conflict_correctness_witness :
    resolveDecision 5 3 = Decision.CONFLICT ∧
    applyCloudChange dbC1 ⟨"inventory.product", 1, "update", [("name", "b")], 3⟩ =
      Except.ok (handleConflict dbC1 rA [("name", "b")] 3) := by
  have h := C5_conflict_correctness dbC1
    ⟨"inventory.product", 1, "update", [("name", "b")], 3⟩ rA miP rfl rfl rfl
    (by decide) (by decide)
  exact ⟨h.1, h.2.2.2⟩

/-- C6 counterexample.  Manual-policy conflict on record rA (local version 5 at
the moment the conflict is detected), incoming version 3: exactly one audit row
is produced, but its details carry local_version 6 — the `save()` that persisted
the 'conflict' status incremented the record's version BEFORE the log row is
built — not the at-conflict value 5 the claim requires. -/
theorem C6_manual_cex :
    rA.sync_version = 5 ∧
    (handleConflict dbM rA [("name", "b")] 3).logs =
      [⟨"conflict", "error", "inventory.product", some 1, "Sync conflict detected",
        some ⟨6, 3, [("name", "b")]⟩⟩] ∧
    (6 : Nat) ≠ 5 := by
  exact ⟨rfl, rfl, by decide⟩

/-- C6 amended: under the manual policy the payload is unchanged, the status
becomes 'conflict', the journal is untouched, and exactly one audit entry with
operation 'conflict' is appended whose details carry the incoming version, the
full incoming payload, and the local record's POST-SAVE version — its version at
the time of conflict plus one, because the save that stores the 'conflict'
status increments sync_version before the audit row is written. -/
theorem C6_manual_amended (db : DB) (r : SyncRecord) (data : List (String × String))
    (cv p : Nat) (hpol : db.conflict_resolution = "manual")
    (hpk : r.pk = some p)
    (hex : (findRecord db r.model_name p).isSome = true) :
    (findRecord (handleConflict db r data cv) r.model_name p).map
        (fun x => (x.fields, x.sync_status)) = some (r.fields, "conflict") ∧
    (handleConflict db r data cv).logs = db.logs ++
      [⟨"conflict", "error", r.model_name, some p, "Sync conflict detected",
        some ⟨r.sync_version + 1, cv, data⟩⟩] ∧
    (handleConflict db r data cv).queue = db.queue := by
  have hpol1 : (db.conflict_resolution == "server_wins") = false := by rw [hpol]; rfl
  have hpol2 : (db.conflict_resolution == "client_wins") = false := by rw [hpol]; rfl
  have ho1pk : ({ r with sync_status := "conflict" } : SyncRecord).pk = some p := hpk
  have hfst := saveRecord_fst { r with sync_status := "conflict" } db 0 p ho1pk
  have hsnd := saveRecord_snd { r with sync_status := "conflict" } db 0 p ho1pk
  have hstatus : (saveRecord { r with sync_status := "conflict" } db 0).1.sync_status =
      "conflict" := by
    rw [hfst]
    simp
  have key : handleConflict db r data cv =
      { (saveRecord { r with sync_status := "conflict" } db 0).2 with
          logs := db.logs ++
            [⟨"conflict", "error", r.model_name, some p, "Sync conflict detected",
              some ⟨r.sync_version + 1, cv, data⟩⟩] } := by
    unfold handleConflict
    simp only [hpol1, hpol2, Bool.false_eq_true, if_false]
    rw [hfst, hsnd]
    simp [hpk]
  refine ⟨?_, ?_, ?_⟩
  · rw [key]
    have hfind := findRecord_saveRecord { r with sync_status := "conflict" } db 0 p ho1pk hex
    rw [show findRecord
        { (saveRecord { r with sync_status := "conflict" } db 0).2 with
            logs := db.logs ++
              [⟨"conflict", "error", r.model_name, some p, "Sync conflict detected",
                some ⟨r.sync_version + 1, cv, data⟩⟩] } r.model_name p =
        findRecord (saveRecord { r with sync_status := "conflict" } db 0).2 r.model_name p
      from rfl]
    rw [hfind, hfst]
    simp
  · rw [key]
  · rw [key]
    show (saveRecord { r with sync_status := "conflict" } db 0).2.queue = db.queue
    rw [hsnd, hstatus]
    simp

/-- C6 witness: the amended statement at the concrete manual-policy conflict of
the counterexample. -/
theorem C6_manual_witness :
    (findRecord (handleConflict dbM rA [("name", "b")] 3) "inventory.product" 1).map
        (fun x => (x.fields, x.sync_status)) = some ([("name", "a")], "conflict") ∧
    (handleConflict dbM rA [("name", "b")] 3).queue = dbM.queue := by
  have h := C6_manual_amended dbM rA [("name", "b")] 3 1 rfl rfl rfl
  exact ⟨h.1, h.2.2⟩

/-- When the failed batch filled the batch size, entries appended later (newer
creation times) do not displace it: the next read returns exactly the updated
batch. -/
theorem uploadFail_append (q : List QueueEntry) (bs : Nat) (m : String)
    (hlen : (dequeueBatch q bs).length = bs) (extra : List QueueEntry) :
    dequeueBatch (mapBatch (markEntryFailed m) q bs ++ extra) bs =
      (dequeueBatch q bs).map (markEntryFailed m) := by
  have hf : ∀ e, (markEntryFailed m e).processed_at = e.processed_at := fun e => rfl
  have hpend := pendingEntries_mapBatch (markEntryFailed m) hf q bs
  show (pendingEntries (mapBatch (markEntryFailed m) q bs ++ extra)).take bs = _
  rw [show pendingEntries (mapBatch (markEntryFailed m) q bs ++ extra) =
      pendingEntries (mapBatch (markEntryFailed m) q bs) ++ pendingEntries extra from
      List.filter_append _ _]
  rw [hpend, List.append_assoc, List.take_append_eq_append_take]
  have hA : (((pendingEntries q).take bs).map (markEntryFailed m)).length = bs := by
    rw [List.length_map]
    exact hlen
  rw [List.take_of_length_le (le_of_eq hA), hA]
  simp [dequeueBatch]

/-- C7 (confirmed).  A transport-level upload failure (exception or non-200)
leaves every batch entry unprocessed with retry_count incremented by exactly one
and the error message stored (and changes nothing else on the entry); the next
read of the journal offers exactly those entries first, in their original
relative creation order, followed by the pending entries beyond the batch; and
when the failed batch was full, appending newly created entries afterwards still
re-offers exactly the failed batch. -/
theorem C7_retry_safety (db : DB) (out : UploadOutcome) (bs : Nat) (m : String)
    (hm : uploadFailureMessage out = some m) :
    dequeueBatch (uploadChanges db out bs).1.queue bs =
      (dequeueBatch db.queue bs).map (markEntryFailed m) ∧
    pendingEntries (uploadChanges db out bs).1.queue =
      ((dequeueBatch db.queue bs).map (markEntryFailed m)) ++
        ((pendingEntries db.queue).drop bs) ∧
    (∀ e ∈ dequeueBatch db.queue bs,
      e.processed_at = none ∧
      markEntryFailed m e = { e with retry_count := e.retry_count + 1, error_message := m }) ∧
    ((dequeueBatch db.queue bs).length = bs →
      ∀ extra : List QueueEntry,
        dequeueBatch ((uploadChanges db out bs).1.queue ++ extra) bs =
          (dequeueBatch db.queue bs).map (markEntryFailed m)) := by
  have hf : ∀ e, (markEntryFailed m e).processed_at = e.processed_at := fun e => rfl
  have hmembatch : ∀ e ∈ dequeueBatch db.queue bs,
      e.processed_at = none ∧
      markEntryFailed m e = { e with retry_count := e.retry_count + 1, error_message := m } :=
    fun e he => ⟨dequeueBatch_processed_at_none db.queue bs e he, rfl⟩
  cases hemp : (dequeueBatch db.queue bs).isEmpty with
  | true =>
    have hbe : dequeueBatch db.queue bs = [] := by
      cases h : dequeueBatch db.queue bs with
      | nil => rfl
      | cons a l => rw [h] at hemp; simp [List.isEmpty] at hemp
    have hq : (uploadChanges db out bs).1.queue = db.queue := by
      unfold uploadChanges
      rw [if_pos hemp]
    have hdrop : pendingEntries db.queue = (pendingEntries db.queue).drop bs := by
      rcases List.take_eq_nil_iff.mp hbe with h0 | h0
      · rw [h0]
        rfl
      · rw [h0]
        simp
    refine ⟨?_, ?_, hmembatch, ?_⟩
    · rw [hq, hbe]
      rfl
    · rw [hq, hbe, List.map_nil, List.nil_append]
      exact hdrop
    · intro hlen extra
      rw [hbe] at hlen ⊢
      rw [List.map_nil]
      simp only [List.length_nil] at hlen
      rw [hq]
      unfold dequeueBatch
      rw [← hlen, List.take_zero]
  | false =>
    have hne : ¬ (dequeueBatch db.queue bs).isEmpty = true := by
      rw [hemp]
      simp
    cases out with
    | ok a b => exact absurd hm (by simp [uploadFailureMessage])
    | httpError s t =>
      have hmsg : ("Upload failed: " ++ toString s ++ " " ++ t) = m :=
        Option.some.inj hm
      have hq : (uploadChanges db (UploadOutcome.httpError s t) bs).1.queue =
          mapBatch (markEntryFailed m) db.queue bs := by
        unfold uploadChanges
        rw [if_neg hne, ← hmsg]
      rw [hq]
      exact ⟨dequeueBatch_mapBatch (markEntryFailed m) hf db.queue bs,
        pendingEntries_mapBatch (markEntryFailed m) hf db.queue bs,
        hmembatch,
        fun hlen extra => uploadFail_append db.queue bs m hlen extra⟩
    | netError msg =>
      have hmsg : msg = m := Option.some.inj hm
      have hq : (uploadChanges db (UploadOutcome.netError msg) bs).1.queue =
          mapBatch (markEntryFailed m) db.queue bs := by
        unfold uploadChanges
        rw [if_neg hne, ← hmsg]
      rw [hq]
      exact ⟨dequeueBatch_mapBatch (markEntryFailed m) hf db.queue bs,
        pendingEntries_mapBatch (markEntryFailed m) hf db.queue bs,
        hmembatch,
        fun hlen extra => uploadFail_append db.queue bs m hlen extra⟩

/-- C7 witness: a two-entry pending journal, batch size 1, transport exception:
the next read offers exactly the failed entry, updated, first. -/
theorem C7_retry_safety_witness :
    dequeueBatch (uploadChanges dbQ (UploadOutcome.netError "boom") 1).1.queue 1 =
      (dequeueBatch dbQ.queue 1).map (markEntryFailed "boom") ∧
    dequeueBatch ((uploadChanges dbQ (UploadOutcome.netError "boom") 1).1.queue ++
        [⟨"inventory.product", 4, "update", [], 1, 30, none, 0, ""⟩]) 1 =
      (dequeueBatch dbQ.queue 1).map (markEntryFailed "boom") := by
  have h := C7_retry_safety dbQ (UploadOutcome.netError "boom") 1 "boom" rfl
  exact ⟨h.1, h.2.2.2 (by decide) [⟨"inventory.product", 4, "update", [], 1, 30, none, 0, ""⟩]⟩

/-- C8 counterexample.  The journal already holds an UNPROCESSED entry for the
same (record_type, record_id) at version 7.  Enqueueing (m, 1, version 5) twice
then yields ZERO journal entries for the (m, 1, 5) key, not exactly one: the
`get_or_create` in `SyncModel.save` deduplicates on (model_name, object_id) only,
so the existing different-version entry blocks both enqueues. -/
theorem C8_enqueue_cex :
    countKey qStale "m" 1 5 = 0 ∧
    qStale.all (fun e => e.processed_at.isNone) = true ∧
    countKey (enqueueChange (enqueueChange qStale "m" 1 "update" [] 5 1) "m" 1 "update" [] 5 2)
      "m" 1 5 = 0 ∧
    (0 : Nat) ≠ 1 := by
  exact ⟨rfl, rfl, rfl, by decide⟩

/-- C8 amended: the second enqueue for the same (record_type, record_id, version)
is always a no-op (never a duplicate), and enqueueing twice yields exactly one
entry for the key PROVIDED no journal entry for the same (record_type, record_id)
— of any version, processed or not — already exists; an existing entry with that
pair key makes the enqueue itself a no-op, the dedup key being the pair, not the
triple. -/
theorem C8_enqueue_amended (q : List QueueEntry) (mn : String) (oid : Nat)
    (op op2 : String) (d d2 : List (String × String)) (ver t1 t2 : Nat) :
    enqueueChange (enqueueChange q mn oid op d ver t1) mn oid op2 d2 ver t2 =
      enqueueChange q mn oid op d ver t1 ∧
    (q.any (fun e => e.model_name == mn && e.object_id == oid) = false →
      countKey (enqueueChange q mn oid op d ver t1) mn oid ver = 1 ∧
      countKey (enqueueChange (enqueueChange q mn oid op d ver t1) mn oid op2 d2 ver t2)
        mn oid ver = 1) ∧
    (q.any (fun e => e.model_name == mn && e.object_id == oid) = true →
      enqueueChange q mn oid op d ver t1 = q) := by
  have hidem : enqueueChange (enqueueChange q mn oid op d ver t1) mn oid op2 d2 ver t2 =
      enqueueChange q mn oid op d ver t1 :=
    enqueueChange_of_any _ mn oid op2 d2 ver t2 (enqueueChange_any q mn oid op d ver t1)
  refine ⟨hidem, ?_, fun h => enqueueChange_of_any q mn oid op d ver t1 h⟩
  intro hany
  have h0 : countKey q mn oid ver = 0 := by
    unfold countKey
    rw [List.length_eq_zero, List.filter_eq_nil_iff]
    intro e he htrip
    rw [Bool.and_eq_true] at htrip
    have hpair := htrip.1
    rw [Bool.and_eq_true] at hpair
    have : q.any (fun e => e.model_name == mn && e.object_id == oid) = true :=
      List.any_eq_true.mpr ⟨e, he, by rw [Bool.and_eq_true]; exact hpair⟩
    rw [hany] at this
    exact Bool.false_ne_true this
  have happ : enqueueChange q mn oid op d ver t1 =
      q ++ [⟨mn, oid, op, d, ver, t1, none, 0, ""⟩] := by
    unfold enqueueChange
    rw [if_neg (by rw [hany]; simp)]
  have hc1 : countKey (enqueueChange q mn oid op d ver t1) mn oid ver = 1 := by
    rw [happ]
    unfold countKey at h0 ⊢
    rw [List.filter_append, List.length_append, h0]
    simp
  exact ⟨hc1, by rw [hidem]; exact hc1⟩

/-- C8 witness: enqueueing (m, 1, 5) twice into an empty journal yields exactly
one entry for the key. -/
theorem C8_enqueue_witness :
    countKey (enqueueChange (enqueueChange [] "m" 1 "update" [] 5 0) "m" 1 "update" [] 5 1)
      "m" 1 5 = 1 := by
  exact ((C8_enqueue_amended [] "m" 1 "update" "update" [] [] 5 0 1).2.1 rfl).2

/-- C9 counterexample.  The journal of dbQ holds the unprocessed entry e1 (still
eligible for delivery); the operator-triggered purge deletes it — the claim says
unprocessed entries are never deleted.  (The processed entry e3, which the claim
says is purgeable, is the one retained.) -/
theorem C9_purge_cex :
    e1 ∈ dbQ.queue ∧ e1.processed_at = none ∧
    e1 ∉ (clearSyncQueue dbQ).1.queue ∧
    e3 ∈ (clearSyncQueue dbQ).1.queue := by
  exact ⟨by decide, rfl, by decide, by decide⟩

/-- C9 amended: the operator-triggered queue purge (`clear_sync_queue`) deletes
exactly the UNPROCESSED entries — all of them, with no age cutoff — while every
processed entry is retained; the reported count is the number of entries that
were eligible for delivery. -/
theorem C9_purge_amended (db : DB) :
    (∀ e, e ∈ (clearSyncQueue db).1.queue ↔ e ∈ db.queue ∧ e.processed_at ≠ none) ∧
    (∀ e, e ∈ db.queue → e.processed_at = none → e ∉ (clearSyncQueue db).1.queue) ∧
    (clearSyncQueue db).2 = (pendingEntries db.queue).length := by
  have hmem : ∀ e, e ∈ (clearSyncQueue db).1.queue ↔ e ∈ db.queue ∧ e.processed_at ≠ none := by
    intro e
    show e ∈ db.queue.filter (fun x => !x.processed_at.isNone) ↔ _
    rw [List.mem_filter]
    constructor
    · rintro ⟨h1, h2⟩
      refine ⟨h1, ?_⟩
      intro hnone
      rw [hnone] at h2
      simp at h2
    · rintro ⟨h1, h2⟩
      refine ⟨h1, ?_⟩
      cases hpa : e.processed_at with
      | none => exact absurd hpa h2
      | some v => rfl
  refine ⟨hmem, ?_, rfl⟩
  intro e he hnone hc
  exact ((hmem e).mp hc).2 hnone

/-- C9 witness: at the concrete journal of dbQ, the processed entry e3 survives
the purge and the unprocessed entry e2 does not. -/
theorem C9_purge_witness :
    e3 ∈ (clearSyncQueue dbQ).1.queue ∧ e2 ∉ (clearSyncQueue dbQ).1.queue := by
  refine ⟨((C9_purge_amended dbQ).1 e3).mpr ⟨by decide, by decide⟩,
    (C9_purge_amended dbQ).2.1 e2 (by decide) rfl⟩

/-- C10 (confirmed).  Saving an already-persisted record increments its stored
sync_version by exactly one; a sync-enabled record whose status was 'synced'
flips to 'pending' and the journal then holds an entry for it; and applying a
remote update that wins the version comparison (incoming > local) leaves the
stored record at incoming_version + 1, not incoming_version. -/
theorem C10_save_version_increment (r : SyncRecord) (db : DB) (fpk p : Nat)
    (db2 : DB) (ch : Change) (r2 : SyncRecord) (mi : ModelInfo)
    (hpk : r.pk = some p)
    (hm : db2.knownModels.find? (fun x => x.name == ch.model) = some mi)
    (hop : ch.operation = "update")
    (hr : findRecord db2 ch.model ch.id = some r2)
    (hv : ch.version > r2.sync_version) :
    (saveRecord r db fpk).1.sync_version = r.sync_version + 1 ∧
    (r.sync_enabled = true → r.sync_status = "synced" →
      (saveRecord r db fpk).1.sync_status = "pending" ∧
      (saveRecord r db fpk).2.queue.any
        (fun e => e.model_name == r.model_name && e.object_id == p) = true) ∧
    ((applyCloudChange db2 ch).toOption.bind
      (fun d => (findRecord d ch.model ch.id).map (fun x => x.sync_version))) =
      some (ch.version + 1) := by
  have hfst := saveRecord_fst r db fpk p hpk
  refine ⟨by rw [hfst], ?_, ?_⟩
  · intro hen hst
    have hstat : (saveRecord r db fpk).1.sync_status = "pending" := by
      rw [hfst]
      show (if r.sync_enabled && r.sync_status == "synced" then "pending" else r.sync_status) = _
      rw [hen, hst]
      rfl
    refine ⟨hstat, ?_⟩
    rw [saveRecord_snd r db fpk p hpk, hstat]
    show (if r.sync_enabled && ("pending" == "pending") then
        enqueueChange db.queue r.model_name p "update" r.fields (r.sync_version + 1) db.clock
      else db.queue).any (fun e => e.model_name == r.model_name && e.object_id == p) = true
    rw [hen]
    show (enqueueChange db.queue r.model_name p "update" r.fields (r.sync_version + 1)
      db.clock).any (fun e => e.model_name == r.model_name && e.object_id == p) = true
    exact enqueueChange_any db.queue r.model_name p "update" r.fields (r.sync_version + 1) db.clock
  · have hkey := List.find?_some hr
    rw [Bool.and_eq_true] at hkey
    have hr2mn : r2.model_name = ch.model := by
      have := hkey.1
      rwa [beq_iff_eq] at this
    have hr2pk : r2.pk = some ch.id := by
      have := hkey.2
      rwa [beq_iff_eq] at this
    have hada := applyData_eq ch.data r2
    have ho2pk : ({ applyData r2 ch.data with sync_status := "synced", sync_version := ch.version } :
        SyncRecord).pk = some ch.id := by
      show (applyData r2 ch.data).pk = some ch.id
      rw [hada]
      exact hr2pk
    have ho2mn : ({ applyData r2 ch.data with sync_status := "synced", sync_version := ch.version } :
        SyncRecord).model_name = ch.model := by
      show (applyData r2 ch.data).model_name = ch.model
      rw [hada]
      exact hr2mn
    have hex : (findRecord db2
        ({ applyData r2 ch.data with sync_status := "synced", sync_version := ch.version } :
          SyncRecord).model_name ch.id).isSome = true := by
      rw [ho2mn, hr]
      rfl
    have hfind := findRecord_saveRecord
      { applyData r2 ch.data with sync_status := "synced", sync_version := ch.version }
      db2 db2.clock ch.id ho2pk hex
    rw [ho2mn] at hfind
    rw [applyCloudChange_update_dispatch db2 ch r2 mi hm hop hr, if_pos hv]
    show ((findRecord (saveRecord _ db2 db2.clock).2 ch.model ch.id).map
      (fun x => x.sync_version)) = some (ch.version + 1)
    rw [hfind, saveRecord_fst _ db2 db2.clock ch.id ho2pk]
    rfl

/-- C10 witness: saving persisted synced record rA yields stored version 6 and
status 'pending'; applying the winning remote update chGood (version 7) leaves
record 2 stored at version 8. -/
theorem C10_save_version_increment_witness :
    (saveRecord rA db0 0).1.sync_version = 6 ∧
    (saveRecord rA db0 0).1.sync_status = "pending" ∧
    ((applyCloudChange dbC4 chGood).toOption.bind
      (fun d => (findRecord d "inventory.product" 2).map (fun x => x.sync_version))) =
      some 8 := by
  have h := C10_save_version_increment rA db0 0 1 dbC4 chGood rB miP rfl rfl rfl rfl
    (by decide)
  exact ⟨h.1, (h.2.1 rfl rfl).1, h.2.2⟩
